import Mathlib

/-
Shallow embedding of wasmi's module-preparation layer
(`src/prepare/mod.rs`): the `deny_floating_point` and
`validate_memory_size` policy gates, and the `compile_module`
orchestration built on the `WasmiValidation` validator.

The data model mirrors the `parity_wasm::elements` structures the code
consumes: value types, the MVP instruction set, function types, section
contents and resizable limits.  Machine integers (`u32`) are modelled as
`Nat` with explicit reduction modulo `2 ^ 32` where overflow matters.
-/

namespace Wasmi

/-- Value types of the wasm MVP (`parity_wasm::elements::ValueType`). -/
inductive ValueType where
  | I32
  | I64
  | F32
  | F64
deriving DecidableEq, Repr

/-- Block types (`parity_wasm::elements::BlockType`). -/
inductive BlockType where
  | noResult
  | value (t : ValueType)
deriving DecidableEq, Repr

/-- The wasm MVP instruction set (`parity_wasm::elements::Instruction`).
Immediate operands that are `u32`/`u8` indices, alignments and offsets are
modelled as `Nat`; `i32`/`i64` constants as `Int`; float constants carry
their raw bit patterns as `Nat`, matching the parsed representation. -/
inductive Instruction where
  | Unreachable
  | Nop
  | Block (bt : BlockType)
  | Loop (bt : BlockType)
  | If (bt : BlockType)
  | Else
  | End
  | Br (depth : Nat)
  | BrIf (depth : Nat)
  | BrTable (table : List Nat) (dflt : Nat)
  | Return
  | Call (idx : Nat)
  | CallIndirect (idx : Nat) (reserved : Nat)
  | Drop
  | Select
  | GetLocal (idx : Nat)
  | SetLocal (idx : Nat)
  | TeeLocal (idx : Nat)
  | GetGlobal (idx : Nat)
  | SetGlobal (idx : Nat)
  | I32Load (align offset : Nat)
  | I64Load (align offset : Nat)
  | F32Load (align offset : Nat)
  | F64Load (align offset : Nat)
  | I32Load8S (align offset : Nat)
  | I32Load8U (align offset : Nat)
  | I32Load16S (align offset : Nat)
  | I32Load16U (align offset : Nat)
  | I64Load8S (align offset : Nat)
  | I64Load8U (align offset : Nat)
  | I64Load16S (align offset : Nat)
  | I64Load16U (align offset : Nat)
  | I64Load32S (align offset : Nat)
  | I64Load32U (align offset : Nat)
  | I32Store (align offset : Nat)
  | I64Store (align offset : Nat)
  | F32Store (align offset : Nat)
  | F64Store (align offset : Nat)
  | I32Store8 (align offset : Nat)
  | I32Store16 (align offset : Nat)
  | I64Store8 (align offset : Nat)
  | I64Store16 (align offset : Nat)
  | I64Store32 (align offset : Nat)
  | CurrentMemory (reserved : Nat)
  | GrowMemory (reserved : Nat)
  | I32Const (v : Int)
  | I64Const (v : Int)
  | F32Const (bits : Nat)
  | F64Const (bits : Nat)
  | I32Eqz
  | I32Eq
  | I32Ne
  | I32LtS
  | I32LtU
  | I32GtS
  | I32GtU
  | I32LeS
  | I32LeU
  | I32GeS
  | I32GeU
  | I64Eqz
  | I64Eq
  | I64Ne
  | I64LtS
  | I64LtU
  | I64GtS
  | I64GtU
  | I64LeS
  | I64LeU
  | I64GeS
  | I64GeU
  | F32Eq
  | F32Ne
  | F32Lt
  | F32Gt
  | F32Le
  | F32Ge
  | F64Eq
  | F64Ne
  | F64Lt
  | F64Gt
  | F64Le
  | F64Ge
  | I32Clz
  | I32Ctz
  | I32Popcnt
  | I32Add
  | I32Sub
  | I32Mul
  | I32DivS
  | I32DivU
  | I32RemS
  | I32RemU
  | I32And
  | I32Or
  | I32Xor
  | I32Shl
  | I32ShrS
  | I32ShrU
  | I32Rotl
  | I32Rotr
  | I64Clz
  | I64Ctz
  | I64Popcnt
  | I64Add
  | I64Sub
  | I64Mul
  | I64DivS
  | I64DivU
  | I64RemS
  | I64RemU
  | I64And
  | I64Or
  | I64Xor
  | I64Shl
  | I64ShrS
  | I64ShrU
  | I64Rotl
  | I64Rotr
  | F32Abs
  | F32Neg
  | F32Ceil
  | F32Floor
  | F32Trunc
  | F32Nearest
  | F32Sqrt
  | F32Add
  | F32Sub
  | F32Mul
  | F32Div
  | F32Min
  | F32Max
  | F32Copysign
  | F64Abs
  | F64Neg
  | F64Ceil
  | F64Floor
  | F64Trunc
  | F64Nearest
  | F64Sqrt
  | F64Add
  | F64Sub
  | F64Mul
  | F64Div
  | F64Min
  | F64Max
  | F64Copysign
  | I32WrapI64
  | I32TruncSF32
  | I32TruncUF32
  | I32TruncSF64
  | I32TruncUF64
  | I64ExtendSI32
  | I64ExtendUI32
  | I64TruncSF32
  | I64TruncUF32
  | I64TruncSF64
  | I64TruncUF64
  | F32ConvertSI32
  | F32ConvertUI32
  | F32ConvertSI64
  | F32ConvertUI64
  | F32DemoteF64
  | F64ConvertSI32
  | F64ConvertUI32
  | F64ConvertSI64
  | F64ConvertUI64
  | F64PromoteF32
  | I32ReinterpretF32
  | I64ReinterpretF64
  | F32ReinterpretI32
  | F64ReinterpretI64

/-- A function type (`parity_wasm::elements::FunctionType`):
parameter types plus result types. -/
structure FuncType where
  params : List ValueType
  results : List ValueType
deriving DecidableEq, Repr

/-- A function-section entry (`parity_wasm::elements::Func`): a reference
into the type section. -/
structure Func where
  type_ref : Nat
deriving DecidableEq, Repr

/-- One function body of the code section
(`parity_wasm::elements::FuncBody`): declared locals plus the raw
instruction sequence. -/
structure FuncBody where
  locals : List ValueType
  code : List Instruction

/-- Resizable limits of a linear memory
(`parity_wasm::elements::ResizableLimits`): initial page count and an
optional maximum. -/
structure ResizableLimits where
  initial : Nat
  maximum : Option Nat
deriving DecidableEq, Repr

/-- A memory-section entry (`parity_wasm::elements::MemoryType`). -/
structure MemoryType where
  limits : ResizableLimits
deriving DecidableEq, Repr

/-- The sections of a parsed module that the preparation layer reads
(`parity_wasm::elements::Module`); an absent section is `none`. -/
structure Module where
  types : Option (List FuncType)
  functions : Option (List Func)
  code : Option (List FuncBody)
  memories : Option (List MemoryType)

/-- The validation error (`validation::Error`).  The source wraps a
formatted diagnostic string; here the distinct `format!` messages of
`prepare/mod.rs` are modelled structurally, keeping the data each message
interpolates (the offending instruction, the configured page cap). -/
inductive Error where
  | f64Denied (op : Instruction)
  | f32Denied (op : Instruction)
  | sigDenied
  | memExceeded (max_pages : Nat)

/-- The `DENIED_32` table of `deny_floating_point`: an instruction is in
the 32-bit-float-denied set when one of the listed matchers fires. -/
def DENIED_32 : Instruction → Bool
  | .F32Load _ _ => true
  | .F32Store _ _ => true
  | .F32Const _ => true
  | .F32Eq => true
  | .F32Ne => true
  | .F32Lt => true
  | .F32Gt => true
  | .F32Le => true
  | .F32Ge => true
  | .F32Abs => true
  | .F32Neg => true
  | .F32Ceil => true
  | .F32Floor => true
  | .F32Trunc => true
  | .F32Nearest => true
  | .F32Sqrt => true
  | .F32Add => true
  | .F32Sub => true
  | .F32Mul => true
  | .F32Div => true
  | .F32Min => true
  | .F32Max => true
  | .F32Copysign => true
  | .F32ConvertSI32 => true
  | .F32ConvertUI32 => true
  | .F32ConvertSI64 => true
  | .F32ConvertUI64 => true
  | .F32DemoteF64 => true
  | .I32TruncSF32 => true
  | .I32TruncUF32 => true
  | .I32TruncSF64 => true
  | .I32TruncUF64 => true
  | .F32ReinterpretI32 => true
  | .I32ReinterpretF32 => true
  | _ => false

/-- The `DENIED_64` table of `deny_floating_point`. -/
def DENIED_64 : Instruction → Bool
  | .F64Load _ _ => true
  | .F64Store _ _ => true
  | .F64Const _ => true
  | .F64Eq => true
  | .F64Ne => true
  | .F64Lt => true
  | .F64Gt => true
  | .F64Le => true
  | .F64Ge => true
  | .F64Abs => true
  | .F64Neg => true
  | .F64Ceil => true
  | .F64Floor => true
  | .F64Trunc => true
  | .F64Nearest => true
  | .F64Sqrt => true
  | .F64Add => true
  | .F64Sub => true
  | .F64Mul => true
  | .F64Div => true
  | .F64Min => true
  | .F64Max => true
  | .F64Copysign => true
  | .F64ConvertSI32 => true
  | .F64ConvertUI32 => true
  | .F64ConvertSI64 => true
  | .F64ConvertUI64 => true
  | .F64PromoteF32 => true
  | .F64ReinterpretI64 => true
  | .I64TruncSF32 => true
  | .I64TruncUF32 => true
  | .I64TruncSF64 => true
  | .I64TruncUF64 => true
  | .I64ReinterpretF64 => true
  | _ => false

/-- The per-instruction decision of the instruction-scan loop body of
`deny_floating_point`: `DENIED_64` is checked first, then `DENIED_32`
guarded by `allow_f32`. -/
def instr_check (allow_f32 : Bool) (op : Instruction) : Except Error Unit :=
  if DENIED_64 op then Except.error (Error.f64Denied op)
  else if allow_f32 && DENIED_32 op then Except.error (Error.f32Denied op)
  else Except.ok ()

/-- The instruction-scan loop of `deny_floating_point`, over the
flat-mapped instruction stream of all bodies: first violation aborts. -/
def instr_scan_ops (allow_f32 : Bool) : List Instruction → Except Error Unit
  | [] => Except.ok ()
  | op :: rest =>
    match instr_check allow_f32 op with
    | Except.error e => Except.error e
    | Except.ok () => instr_scan_ops allow_f32 rest

/-- The flat-mapped instruction stream of a module: concatenation of all
code-section bodies, in order; empty when the code section is absent
(the `if let Some(code)` guard plus `flat_map` of the source). -/
def Module.all_ops (m : Module) : List Instruction :=
  match m.code with
  | none => []
  | some bodies => (bodies.map FuncBody.code).flatten

/-- The instruction scan of `deny_floating_point` on a whole module. -/
def instr_scan (m : Module) (allow_f32 : Bool) : Except Error Unit :=
  instr_scan_ops allow_f32 m.all_ops

/-- Whether a function type uses a denied float type: the source iterates
`func.params().iter().chain(func.results().first())`, i.e. all parameters
plus only the first result. -/
def type_denied (allow_f32 : Bool) (ft : FuncType) : Bool :=
  (ft.params ++ ft.results.take 1).any fun t =>
    if allow_f32 then t == ValueType.F64
    else t == ValueType.F32 || t == ValueType.F64

/-- The signature-scan loop of `deny_floating_point` over the
function-section entries: an out-of-bounds type reference is skipped
(`if let Some(typ) = types.get(...)`). -/
def sig_scan_entries (allow_f32 : Bool) (types : List FuncType) :
    List Func → Except Error Unit
  | [] => Except.ok ()
  | sig :: rest =>
    match types.get? sig.type_ref with
    | some ft =>
      if type_denied allow_f32 ft then Except.error Error.sigDenied
      else sig_scan_entries allow_f32 types rest
    | none => sig_scan_entries allow_f32 types rest

/-- The signature scan of `deny_floating_point`: runs only when both the
function section and the type section are present. -/
def sig_scan (m : Module) (allow_f32 : Bool) : Except Error Unit :=
  match m.functions, m.types with
  | some sec, some types => sig_scan_entries allow_f32 types sec
  | _, _ => Except.ok ()

/-- `deny_floating_point` of `prepare/mod.rs`: the instruction scan runs
first (returning its error on the first violation), then the signature
scan. -/
def deny_floating_point (m : Module) (allow_f32 : Bool) : Except Error Unit :=
  match instr_scan m allow_f32 with
  | Except.error e => Except.error e
  | Except.ok () => sig_scan m allow_f32

/-- Wrapping 32-bit addition: the `u32` sum of the source wraps modulo
`2 ^ 32` (release-mode semantics of `u32` addition). -/
def u32_add (a b : Nat) : Nat := (a + b) % 2 ^ 32

/-- The page sum of `validate_memory_size`: the `u32` sum of the initial
page counts of all memory-section entries, `0` when the section is
absent (`unwrap_or(0)`). -/
def sum_pages (m : Module) : Nat :=
  match m.memories with
  | none => 0
  | some entries =>
    ((entries.map fun entry => entry.limits.initial).foldl u32_add 0)

/-- `validate_memory_size` of `prepare/mod.rs`. -/
def validate_memory_size (m : Module) (max_pages : Nat) : Except Error Unit :=
  if sum_pages m > max_pages then Except.error (Error.memExceeded max_pages)
  else Except.ok ()

/-- Modelled from the spec: `isa::Instructions`, the compiled Instruction
Encoding of one function body.  The `isa` module is not part of the shown
fragment; the encoding is kept abstract as an opaque payload, since the
preparation layer only moves these values around. -/
structure Instructions where
  payload : List Nat
deriving DecidableEq, Repr

/-- The `WasmiValidation` validator state of `prepare/mod.rs`: the code
map collected so far. -/
structure WasmiValidation where
  code_map : List Instructions

/-- `Validator::new` for `WasmiValidation`: an empty code map. -/
def WasmiValidation.new (_m : Module) : WasmiValidation :=
  { code_map := [] }

/-- `Validator::on_function_validated` for `WasmiValidation`: pushes the
compiled output of one function onto the code map. -/
def WasmiValidation.on_function_validated (s : WasmiValidation)
    (_index : Nat) (output : Instructions) : WasmiValidation :=
  { code_map := s.code_map ++ [output] }

/-- `Validator::finish` for `WasmiValidation`: returns the code map. -/
def WasmiValidation.finish (s : WasmiValidation) : List Instructions :=
  s.code_map

/-- The function bodies of a module, in declaration order; empty when the
code section is absent. -/
def Module.bodies (m : Module) : List FuncBody :=
  m.code.getD []

/-- Modelled from the spec: the driver loop of the external
`validation::validate_module` over one module.  Per spec section 4.2 it
invokes the per-function validator/compiler (here the abstract parameter
`compile_func`, since `compile::Compiler` is outside the shown fragment)
on every function body in declaration order, reporting each success to
the validator via `on_function_validated` and aborting on the first
failure. -/
def run_bodies (compile_func : FuncBody → Except Error Instructions) :
    Nat → WasmiValidation → List FuncBody → Except Error WasmiValidation
  | _, s, [] => Except.ok s
  | idx, s, b :: rest =>
    match compile_func b with
    | Except.error e => Except.error e
    | Except.ok output =>
      run_bodies compile_func (idx + 1)
        (s.on_function_validated idx output) rest

/-- Modelled from the spec: `validation::validate_module`, assembled from
the `Validator` callbacks implemented by `WasmiValidation` in
`prepare/mod.rs` and the driver loop `run_bodies`. -/
def validate_module (compile_func : FuncBody → Except Error Instructions)
    (m : Module) : Except Error (List Instructions) :=
  match run_bodies compile_func 0 (WasmiValidation.new m) m.bodies with
  | Except.error e => Except.error e
  | Except.ok s => Except.ok s.finish

/-- `CompiledModule` of `prepare/mod.rs`. -/
structure CompiledModule where
  code_map : List Instructions
  module : Module

/-- `compile_module` of `prepare/mod.rs`: validate the module, pairing the
original module with the collected code map on success. -/
def compile_module (compile_func : FuncBody → Except Error Instructions)
    (m : Module) : Except Error CompiledModule :=
  match validate_module compile_func m with
  | Except.error e => Except.error e
  | Except.ok code_map => Except.ok { module := m, code_map := code_map }

/-- Fail-fast elementwise compilation of a list of bodies, used to state
what a successful `compile_module` run produced. -/
def map_except (compile_func : FuncBody → Except Error Instructions) :
    List FuncBody → Except Error (List Instructions)
  | [] => Except.ok []
  | b :: rest =>
    match compile_func b with
    | Except.error e => Except.error e
    | Except.ok output =>
      match map_except compile_func rest with
      | Except.error e => Except.error e
      | Except.ok outputs => Except.ok (output :: outputs)

/-- Whether the instruction-scan loop body rejects `op`: the combined
condition of its two `if` statements. -/
def instr_denied (allow_f32 : Bool) (op : Instruction) : Bool :=
  DENIED_64 op || (allow_f32 && DENIED_32 op)

/-- The error the instruction-scan loop body reports for a denied `op`. -/
def instr_error (op : Instruction) : Error :=
  if DENIED_64 op then Error.f64Denied op else Error.f32Denied op

/-- No signature of the module triggers rejection: every function-section
entry whose type reference lands in the type section has a float-free
signature (in the sense of `type_denied`). -/
def no_sig_violation (m : Module) (allow_f32 : Bool) : Prop :=
  ∀ sec types, m.functions = some sec → m.types = some types →
    ∀ sig ∈ sec, ∀ ft, types.get? sig.type_ref = some ft →
      type_denied allow_f32 ft = false

/-- A module that is empty but for a single function body holding the
`i32.trunc_s/f64` conversion. -/
def truncModule : Module :=
  { types := none
    functions := none
    code := some [{ locals := [], code := [Instruction.I32TruncSF64] }]
    memories := none }

/-- A module whose single function body holds an `f32` constant. -/
def f32ConstModule (bits : Nat) : Module :=
  { types := none
    functions := none
    code := some [{ locals := [], code := [Instruction.F32Const bits] }]
    memories := none }

/-- A module whose only function has the two-result type `[] → [i32, f64]`:
the `f64` occurs strictly after the first result. -/
def secondResultF64Module : Module :=
  { types := some [{ params := [], results := [ValueType.I32, ValueType.F64] }]
    functions := some [{ type_ref := 0 }]
    code := some [{ locals := [], code := [] }]
    memories := none }

/-- A module declaring two memories with initial page counts 3 and 4 (the
second also declares a maximum, which must be ignored). -/
def pages34Module : Module :=
  { types := none
    functions := none
    code := none
    memories := some
      [{ limits := { initial := 3, maximum := none } },
       { limits := { initial := 4, maximum := some 10 } }] }

/-- A module declaring two memories of `2 ^ 31` initial pages each: the
mathematical page total is `2 ^ 32`, which wraps to `0` in `u32`. -/
def wrapModule : Module :=
  { types := none
    functions := none
    code := none
    memories := some
      [{ limits := { initial := 2 ^ 31, maximum := none } },
       { limits := { initial := 2 ^ 31, maximum := none } }] }

/-- A module whose single function body holds an `f64.add`. -/
def f64AddModule : Module :=
  { types := none
    functions := none
    code := some [{ locals := [], code := [Instruction.F64Add] }]
    memories := none }

/-- A module with no memory section. -/
def noMemModule : Module :=
  { types := none, functions := none, code := none, memories := none }

/-- A module whose only function takes one `f32` parameter. -/
def f32ParamModule : Module :=
  { types := some [{ params := [ValueType.F32], results := [] }]
    functions := some [{ type_ref := 0 }]
    code := none
    memories := none }

/-- A per-function compiler stub used to exercise the orchestration:
compiles a body to a singleton payload holding its instruction count. -/
def length_compiler (b : FuncBody) : Except Error Instructions :=
  Except.ok { payload := [b.code.length] }

/-- A module with two function bodies of different lengths. -/
def twoBodyModule : Module :=
  { types := none
    functions := none
    code := some
      [{ locals := [], code := [Instruction.Nop] },
       { locals := [], code := [] }]
    memories := none }

/-- The compiled module `compile_module length_compiler twoBodyModule`
produces. -/
def twoBodyCompiled : CompiledModule :=
  { module := twoBodyModule
    code_map := [{ payload := [1] }, { payload := [0] }] }

lemma instr_check_eq_ok (allow_f32 : Bool) (op : Instruction) :
    instr_check allow_f32 op = Except.ok () ↔
      instr_denied allow_f32 op = false := by
  unfold instr_check instr_denied
  cases h64 : DENIED_64 op <;>
    cases h32 : allow_f32 && DENIED_32 op <;> simp

lemma instr_check_eq_error (allow_f32 : Bool) (op : Instruction)
    (h : instr_denied allow_f32 op = true) :
    instr_check allow_f32 op = Except.error (instr_error op) := by
  unfold instr_denied at h
  unfold instr_check instr_error
  cases h64 : DENIED_64 op <;> simp [h64] at h ⊢
  exact h

lemma instr_scan_ops_ok_iff (allow_f32 : Bool) (ops : List Instruction) :
    instr_scan_ops allow_f32 ops = Except.ok () ↔
      ∀ op ∈ ops, instr_denied allow_f32 op = false := by
  induction ops with
  | nil => simp [instr_scan_ops]
  | cons op rest ih =>
    unfold instr_scan_ops
    cases hc : instr_check allow_f32 op with
    | error e =>
      have hop : ¬instr_denied allow_f32 op = false := by
        intro hfalse
        rw [(instr_check_eq_ok allow_f32 op).mpr hfalse] at hc
        cases hc
      simp only [List.mem_cons]
      constructor
      · intro h; cases h
      · intro h
        exact absurd (h op (Or.inl rfl)) hop
    | ok u =>
      cases u
      have hop : instr_denied allow_f32 op = false :=
        (instr_check_eq_ok allow_f32 op).mp hc
      simp only [List.mem_cons, ih]
      constructor
      · intro h o ho
        cases ho with
        | inl he => exact he ▸ hop
        | inr hm => exact h o hm
      · intro h o ho
        exact h o (Or.inr ho)

lemma instr_scan_ops_find_none (allow_f32 : Bool) (ops : List Instruction)
    (h : ops.find? (instr_denied allow_f32) = none) :
    instr_scan_ops allow_f32 ops = Except.ok () := by
  rw [instr_scan_ops_ok_iff]
  intro op hop
  simpa using List.find?_eq_none.mp h op hop

lemma instr_scan_ops_find_some (allow_f32 : Bool) (ops : List Instruction)
    (op : Instruction)
    (h : ops.find? (instr_denied allow_f32) = some op) :
    instr_scan_ops allow_f32 ops = Except.error (instr_error op) := by
  induction ops with
  | nil => cases h
  | cons o rest ih =>
    cases hd : instr_denied allow_f32 o with
    | true =>
      rw [List.find?_cons_of_pos rest hd] at h
      injection h with h2
      subst h2
      unfold instr_scan_ops
      rw [instr_check_eq_error allow_f32 _ hd]
    | false =>
      have hneg : ¬instr_denied allow_f32 o = true := by simp [hd]
      rw [List.find?_cons_of_neg rest hneg] at h
      unfold instr_scan_ops
      rw [(instr_check_eq_ok allow_f32 o).mpr hd]
      exact ih h

lemma except_unit_cases (e : Except Error Unit) :
    e = Except.ok () ∨ ∃ err, e = Except.error err := by
  cases e with
  | error err => exact Or.inr ⟨err, rfl⟩
  | ok u => cases u; exact Or.inl rfl

lemma sig_scan_entries_ok_iff (allow_f32 : Bool) (types : List FuncType)
    (sec : List Func) :
    sig_scan_entries allow_f32 types sec = Except.ok () ↔
      ∀ sig ∈ sec, ∀ ft, types.get? sig.type_ref = some ft →
        type_denied allow_f32 ft = false := by
  induction sec with
  | nil => simp [sig_scan_entries]
  | cons sig rest ih =>
    unfold sig_scan_entries
    cases hg : types.get? sig.type_ref with
    | none =>
      rw [ih]
      constructor
      · intro h s hs ft hft
        cases hs with
        | head => rw [hg] at hft; cases hft
        | tail _ hm => exact h s hm ft hft
      · intro h s hm ft hft
        exact h s (List.mem_cons_of_mem sig hm) ft hft
    | some ft =>
      dsimp only
      by_cases hden : type_denied allow_f32 ft = true
      · rw [if_pos hden]
        constructor
        · intro h; cases h
        · intro h
          have := h sig (List.mem_cons_self sig rest) ft hg
          rw [hden] at this
          cases this
      · rw [if_neg hden]
        rw [ih]
        have hdenf : type_denied allow_f32 ft = false :=
          Bool.not_eq_true _ ▸ Bool.eq_false_iff.mpr hden
        constructor
        · intro h s hs ft2 hft
          cases hs with
          | head =>
            rw [hg] at hft
            cases hft
            exact hdenf
          | tail _ hm => exact h s hm ft2 hft
        · intro h s hm ft2 hft
          exact h s (List.mem_cons_of_mem sig hm) ft2 hft

lemma sig_scan_entries_cases (allow_f32 : Bool) (types : List FuncType)
    (sec : List Func) :
    sig_scan_entries allow_f32 types sec = Except.ok () ∨
      sig_scan_entries allow_f32 types sec = Except.error Error.sigDenied := by
  induction sec with
  | nil => exact Or.inl rfl
  | cons sig rest ih =>
    unfold sig_scan_entries
    cases hg : types.get? sig.type_ref with
    | none => exact ih
    | some ft =>
      dsimp only
      by_cases hden : type_denied allow_f32 ft = true
      · rw [if_pos hden]
        exact Or.inr rfl
      · rw [if_neg hden]
        exact ih

lemma sig_scan_ok_iff (m : Module) (allow_f32 : Bool) :
    sig_scan m allow_f32 = Except.ok () ↔ no_sig_violation m allow_f32 := by
  unfold sig_scan no_sig_violation
  cases hf : m.functions with
  | none => simp
  | some sec =>
    cases ht : m.types with
    | none => simp
    | some types =>
      rw [sig_scan_entries_ok_iff]
      constructor
      · intro h sec2 types2 hsec2 htypes2
        cases hsec2
        cases htypes2
        exact h
      · intro h
        exact h sec types rfl rfl

lemma run_bodies_ok (compile_func : FuncBody → Except Error Instructions)
    (bodies : List FuncBody) :
    ∀ (idx : Nat) (s s' : WasmiValidation),
      run_bodies compile_func idx s bodies = Except.ok s' →
      ∃ outs, map_except compile_func bodies = Except.ok outs ∧
        s'.code_map = s.code_map ++ outs := by
  induction bodies with
  | nil =>
    intro idx s s' h
    cases h
    exact ⟨[], rfl, by simp⟩
  | cons b rest ih =>
    intro idx s s' h
    unfold run_bodies at h
    cases hc : compile_func b with
    | error e => rw [hc] at h; cases h
    | ok output =>
      rw [hc] at h
      obtain ⟨outs, hmap, hcm⟩ := ih (idx + 1)
        (s.on_function_validated idx output) s' h
      refine ⟨output :: outs, ?_, ?_⟩
      · unfold map_except
        rw [hc, hmap]
      · rw [hcm]
        simp [WasmiValidation.on_function_validated]

lemma map_except_length (compile_func : FuncBody → Except Error Instructions)
    (bodies : List FuncBody) (outs : List Instructions)
    (h : map_except compile_func bodies = Except.ok outs) :
    outs.length = bodies.length := by
  induction bodies generalizing outs with
  | nil => cases h; rfl
  | cons b rest ih =>
    unfold map_except at h
    cases hc : compile_func b with
    | error e => rw [hc] at h; cases h
    | ok output =>
      rw [hc] at h
      cases hm : map_except compile_func rest with
      | error e => rw [hm] at h; cases h
      | ok outs2 =>
        rw [hm] at h
        cases h
        simp [ih outs2 hm]

lemma map_except_get? (compile_func : FuncBody → Except Error Instructions)
    (bodies : List FuncBody) (outs : List Instructions)
    (h : map_except compile_func bodies = Except.ok outs) :
    ∀ i, outs.get? i =
      (bodies.get? i).bind fun b => (compile_func b).toOption := by
  induction bodies generalizing outs with
  | nil =>
    cases h
    intro i
    simp
  | cons b rest ih =>
    unfold map_except at h
    cases hc : compile_func b with
    | error e => rw [hc] at h; cases h
    | ok output =>
      rw [hc] at h
      cases hm : map_except compile_func rest with
      | error e => rw [hm] at h; cases h
      | ok outs2 =>
        rw [hm] at h
        cases h
        intro i
        cases i with
        | zero => simp [hc, Except.toOption]
        | succ j => simpa using ih outs2 hm j

lemma sig_scan_cases (m : Module) (allow_f32 : Bool) :
    sig_scan m allow_f32 = Except.ok () ∨
      sig_scan m allow_f32 = Except.error Error.sigDenied := by
  unfold sig_scan
  cases m.functions with
  | none => exact Or.inl rfl
  | some sec =>
    cases m.types with
    | none => exact Or.inl rfl
    | some types => exact sig_scan_entries_cases allow_f32 types sec

lemma type_denied_true_iff (allow_f32 : Bool) (ft : FuncType) :
    type_denied allow_f32 ft = true ↔
      ∃ t ∈ ft.params ++ ft.results.take 1,
        (t = ValueType.F64 ∨ (allow_f32 = false ∧ t = ValueType.F32)) := by
  unfold type_denied
  rw [List.any_eq_true]
  cases allow_f32 with
  | true =>
    constructor
    · rintro ⟨t, ht, hp⟩
      simp at hp
      exact ⟨t, ht, Or.inl hp⟩
    · rintro ⟨t, ht, hp⟩
      refine ⟨t, ht, ?_⟩
      rcases hp with h | ⟨hfalse, _⟩
      · simp [h]
      · cases hfalse
  | false =>
    constructor
    · rintro ⟨t, ht, hp⟩
      simp at hp
      rcases hp with h32 | h64
      · exact ⟨t, ht, Or.inr ⟨rfl, h32⟩⟩
      · exact ⟨t, ht, Or.inl h64⟩
    · rintro ⟨t, ht, hp⟩
      refine ⟨t, ht, ?_⟩
      rcases hp with h | ⟨_, h⟩ <;> simp [h]

lemma foldl_u32_add (l : List Nat) :
    ∀ b, b < 2 ^ 32 → l.foldl u32_add b = (b + l.sum) % 2 ^ 32 := by
  induction l with
  | nil =>
    intro b hb
    rw [List.foldl_nil, List.sum_nil, Nat.add_zero, Nat.mod_eq_of_lt hb]
  | cons x rest ih =>
    intro b hb
    rw [List.foldl_cons,
      ih (u32_add b x) (Nat.mod_lt _ (by norm_num)),
      List.sum_cons]
    unfold u32_add
    rw [Nat.mod_add_mod]
    omega

/-- Claim C1 counterexample: the module whose single function body holds
only the conversion `i32.trunc_s/f64` passes the instruction scan (and
the whole `deny_floating_point` gate) when `allow_f32 = false`, although
the claim asserts that this conversion is rejected regardless of
`allow_f32`. -/
theorem c1_trunc_sf64_not_always_rejected :
    truncModule.all_ops = [Instruction.I32TruncSF64] ∧
      instr_scan truncModule false = Except.ok () ∧
      deny_floating_point truncModule false = Except.ok () :=
  ⟨rfl, rfl, rfl⟩

/-- Claim C1 (amended): every instruction in the `DENIED_64` table is
rejected by `deny_floating_point` regardless of `allow_f32`; but the
conversions `i32.trunc_s/f64`, `i32.trunc_u/f64` and `f32.demote/f64`
are not in that table — they sit in `DENIED_32` and are therefore
checked only when `allow_f32` is true. -/
theorem c1_denied_64_always_rejected :
    (∀ (m : Module) (allow_f32 : Bool) (op : Instruction),
        op ∈ m.all_ops → DENIED_64 op = true →
        ∃ e, deny_floating_point m allow_f32 = Except.error e) ∧
      DENIED_64 Instruction.I32TruncSF64 = false ∧
      DENIED_32 Instruction.I32TruncSF64 = true ∧
      DENIED_64 Instruction.I32TruncUF64 = false ∧
      DENIED_32 Instruction.I32TruncUF64 = true ∧
      DENIED_64 Instruction.F32DemoteF64 = false ∧
      DENIED_32 Instruction.F32DemoteF64 = true := by
  refine ⟨?_, rfl, rfl, rfl, rfl, rfl, rfl⟩
  intro m allow_f32 op hmem h64
  have hnot : ¬instr_scan m allow_f32 = Except.ok () := by
    intro hok
    have hall := (instr_scan_ops_ok_iff allow_f32 m.all_ops).mp hok
    have := hall op hmem
    rw [instr_denied, h64] at this
    cases this
  rcases except_unit_cases (instr_scan m allow_f32) with hok | ⟨err, herr⟩
  · exact absurd hok hnot
  · refine ⟨err, ?_⟩
    unfold deny_floating_point
    rw [herr]

/-- Claim C1 amended-theorem witness: `deny_floating_point` rejects the
module holding an `f64.add` even with `allow_f32 = false`. -/
theorem c1_denied_64_always_rejected_witness :
    ∃ e, deny_floating_point f64AddModule false = Except.error e :=
  c1_denied_64_always_rejected.1 f64AddModule false Instruction.F64Add
    (List.mem_singleton.mpr rfl) rfl

/-- Claim C2: on a module free of `DENIED_64` instructions, the
instruction scan rejects exactly when `allow_f32` is true and some
instruction of the stream is in `DENIED_32`; at the level of a single
instruction, a `DENIED_32` instruction passes the per-instruction check
iff `allow_f32` is false; in particular a single `f32` constant passes
the instruction scan when `allow_f32 = false`. -/
theorem c2_denied_32_rejected_iff_allow_f32 :
    (∀ (allow_f32 : Bool) (op : Instruction),
        DENIED_32 op = true → DENIED_64 op = false →
        (instr_check allow_f32 op = Except.ok () ↔ allow_f32 = false)) ∧
      (∀ (allow_f32 : Bool) (m : Module),
        (∀ op ∈ m.all_ops, DENIED_64 op = false) →
        (instr_scan m allow_f32 ≠ Except.ok () ↔
          allow_f32 = true ∧ ∃ op ∈ m.all_ops, DENIED_32 op = true)) ∧
      ∀ bits, instr_scan (f32ConstModule bits) false = Except.ok () := by
  refine ⟨?_, ?_, fun _ => rfl⟩
  · intro allow_f32 op h32 h64
    rw [instr_check_eq_ok]
    unfold instr_denied
    rw [h32, h64]
    cases allow_f32 <;> simp
  · intro allow_f32 m h64
    have hiff := instr_scan_ops_ok_iff allow_f32 m.all_ops
    constructor
    · intro hne
      have hnall : ¬∀ op ∈ m.all_ops, instr_denied allow_f32 op = false :=
        fun hall => hne (hiff.mpr hall)
      push_neg at hnall
      obtain ⟨op, hop, hd⟩ := hnall
      have hd2 : instr_denied allow_f32 op = true := by simpa using hd
      unfold instr_denied at hd2
      rw [h64 op hop] at hd2
      simp only [Bool.false_or, Bool.and_eq_true] at hd2
      exact ⟨hd2.1, op, hop, hd2.2⟩
    · rintro ⟨ha, op, hop, h32⟩ hok
      have := hiff.mp hok op hop
      unfold instr_denied at this
      rw [h64 op hop, ha, h32] at this
      cases this

/-- Claim C2 witness at concrete inputs: `f32.add` passes the check only
without `allow_f32`; the scan of a lone `f32` constant rejects under
`allow_f32 = true` and passes under `allow_f32 = false`. -/
theorem c2_denied_32_rejected_iff_allow_f32_witness :
    (instr_check true Instruction.F32Add = Except.ok () ↔ true = false) ∧
      (instr_scan (f32ConstModule 5) true ≠ Except.ok () ↔
        true = true ∧ ∃ op ∈ (f32ConstModule 5).all_ops,
          DENIED_32 op = true) ∧
      instr_scan (f32ConstModule 5) false = Except.ok () :=
  ⟨c2_denied_32_rejected_iff_allow_f32.1 true Instruction.F32Add rfl rfl,
   c2_denied_32_rejected_iff_allow_f32.2.1 true (f32ConstModule 5)
     (fun op hop => by rw [List.mem_singleton.mp hop]; rfl),
   c2_denied_32_rejected_iff_allow_f32.2.2 5⟩

/-- Claim C3: `validate_memory_size` accepts exactly when the (u32) sum
of initial page counts is at most the cap, rejects with an error carrying
the cap otherwise; an absent memory section sums to zero; maxima are
ignored and the sum agrees with the mathematical sum of the initials
whenever the latter fits in `u32`; and the 3-plus-4-pages module is
rejected at cap 6 but accepted at caps 7 and 8. -/
theorem c3_validate_memory_size_spec :
    (∀ (m : Module) (cap : Nat),
        validate_memory_size m cap = Except.ok () ↔ sum_pages m ≤ cap) ∧
      (∀ (m : Module) (cap : Nat), sum_pages m > cap →
        validate_memory_size m cap = Except.error (Error.memExceeded cap)) ∧
      (∀ m : Module, m.memories = none → sum_pages m = 0) ∧
      (∀ (m : Module) (entries : List MemoryType),
        m.memories = some entries →
        (entries.map fun entry => entry.limits.initial).sum < 2 ^ 32 →
        sum_pages m = (entries.map fun entry => entry.limits.initial).sum) ∧
      validate_memory_size pages34Module 6 =
        Except.error (Error.memExceeded 6) ∧
      validate_memory_size pages34Module 7 = Except.ok () ∧
      validate_memory_size pages34Module 8 = Except.ok () := by
  refine ⟨?_, ?_, ?_, ?_, rfl, rfl, rfl⟩
  · intro m cap
    unfold validate_memory_size
    by_cases h : sum_pages m > cap
    · rw [if_pos h]
      constructor
      · intro hok; cases hok
      · intro hle; omega
    · rw [if_neg h]
      constructor
      · intro _; omega
      · intro _; rfl
  · intro m cap h
    unfold validate_memory_size
    rw [if_pos h]
  · intro m hm
    unfold sum_pages
    rw [hm]
  · intro m entries hm hlt
    unfold sum_pages
    rw [hm]
    dsimp only
    rw [foldl_u32_add _ 0 (by norm_num), Nat.zero_add]
    exact Nat.mod_eq_of_lt hlt

/-- Claim C3 witness at concrete inputs. -/
theorem c3_validate_memory_size_spec_witness :
    (validate_memory_size pages34Module 7 = Except.ok () ↔
        sum_pages pages34Module ≤ 7) ∧
      validate_memory_size pages34Module 6 =
        Except.error (Error.memExceeded 6) ∧
      sum_pages noMemModule = 0 ∧
      sum_pages pages34Module = 7 :=
  ⟨c3_validate_memory_size_spec.1 pages34Module 7,
   c3_validate_memory_size_spec.2.1 pages34Module 6 (by decide),
   c3_validate_memory_size_spec.2.2.1 noMemModule rfl,
   c3_validate_memory_size_spec.2.2.2.1 pages34Module
     [{ limits := { initial := 3, maximum := none } },
      { limits := { initial := 4, maximum := some 10 } }] rfl (by decide)⟩

/-- Claim C4: when `compile_module` succeeds it pairs the original,
unmodified module with a code map of exactly one entry per function
body, entry `i` being the compilation output of body `i`, appended in
order.  The driver `validate_module` and the per-function compiler live
outside the shown fragment, so they are modelled from the spec (the
compiler as the abstract parameter `compile_func`); the `WasmiValidation`
callbacks are transcribed from the source. -/
theorem c4_compile_module_code_map
    (compile_func : FuncBody → Except Error Instructions) (m : Module)
    (cm : CompiledModule)
    (h : compile_module compile_func m = Except.ok cm) :
    cm.module = m ∧ cm.code_map.length = m.bodies.length ∧
      ∀ i, cm.code_map.get? i =
        (m.bodies.get? i).bind fun b => (compile_func b).toOption := by
  unfold compile_module validate_module at h
  cases hr : run_bodies compile_func 0 (WasmiValidation.new m) m.bodies with
  | error e => rw [hr] at h; cases h
  | ok s =>
    rw [hr] at h
    injection h with h2
    subst h2
    obtain ⟨outs, hmap, hcm⟩ :=
      run_bodies_ok compile_func m.bodies 0 (WasmiValidation.new m) s hr
    have hsm : s.code_map = outs := by
      simpa [WasmiValidation.new] using hcm
    refine ⟨rfl, ?_, ?_⟩
    · show s.finish.length = m.bodies.length
      rw [WasmiValidation.finish, hsm]
      exact map_except_length compile_func m.bodies outs hmap
    · intro i
      show s.finish.get? i = _
      rw [WasmiValidation.finish, hsm]
      exact map_except_get? compile_func m.bodies outs hmap i

/-- Claim C4 witness: a concrete two-body module compiled with the stub
compiler yields the expected two-entry code map. -/
theorem c4_compile_module_code_map_witness :
    twoBodyCompiled.module = twoBodyModule ∧
      twoBodyCompiled.code_map.length = twoBodyModule.bodies.length ∧
      twoBodyCompiled.code_map.get? 0 =
        (twoBodyModule.bodies.get? 0).bind fun b =>
          (length_compiler b).toOption :=
  ⟨(c4_compile_module_code_map length_compiler twoBodyModule
      twoBodyCompiled rfl).1,
   (c4_compile_module_code_map length_compiler twoBodyModule
      twoBodyCompiled rfl).2.1,
   (c4_compile_module_code_map length_compiler twoBodyModule
      twoBodyCompiled rfl).2.2 0⟩

/-- Claim C5 counterexample: the module whose only function has type
`[] -> [i32, f64]` is accepted by `deny_floating_point` under both
values of `allow_f32`, although its signature contains a result of
64-bit float type — the claim says such a signature is rejected. -/
theorem c5_second_result_f64_not_rejected :
    secondResultF64Module.types =
        some [{ params := [], results := [ValueType.I32, ValueType.F64] }] ∧
      deny_floating_point secondResultF64Module true = Except.ok () ∧
      deny_floating_point secondResultF64Module false = Except.ok () :=
  ⟨rfl, rfl, rfl⟩

/-- Claim C5 (amended): the signature scan rejects exactly when some
function signature contains a denied float type among its parameters or
its first result: under `allow_f32 = true` the 64-bit float type, under
`allow_f32 = false` either float type. -/
theorem c5_sig_scan_exact (m : Module) (allow_f32 : Bool) :
    sig_scan m allow_f32 ≠ Except.ok () ↔
      ∃ sec types, m.functions = some sec ∧ m.types = some types ∧
        ∃ sig ∈ sec, ∃ ft, types.get? sig.type_ref = some ft ∧
          ∃ t ∈ ft.params ++ ft.results.take 1,
            (t = ValueType.F64 ∨
              (allow_f32 = false ∧ t = ValueType.F32)) := by
  rw [Ne, sig_scan_ok_iff]
  unfold no_sig_violation
  constructor
  · intro h
    push_neg at h
    obtain ⟨sec, types, hsec, htypes, sig, hm, ft, hft, hden⟩ := h
    have hden2 : type_denied allow_f32 ft = true := by simpa using hden
    obtain ⟨t, ht, hp⟩ := (type_denied_true_iff allow_f32 ft).mp hden2
    exact ⟨sec, types, hsec, htypes, sig, hm, ft, hft, t, ht, hp⟩
  · rintro ⟨sec, types, hsec, htypes, sig, hm, ft, hft, t, ht, hp⟩ hall
    have hfalse := hall sec types hsec htypes sig hm ft hft
    have htrue : type_denied allow_f32 ft = true :=
      (type_denied_true_iff allow_f32 ft).mpr ⟨t, ht, hp⟩
    rw [hfalse] at htrue
    cases htrue

/-- Claim C5 amended-theorem witness: the module whose only function
takes an `f32` parameter is rejected by the signature scan when
`allow_f32 = false`. -/
theorem c5_sig_scan_exact_witness :
    sig_scan f32ParamModule false ≠ Except.ok () :=
  (c5_sig_scan_exact f32ParamModule false).mpr
    ⟨[{ type_ref := 0 }], [{ params := [ValueType.F32], results := [] }],
      rfl, rfl, { type_ref := 0 }, List.mem_singleton.mpr rfl,
      { params := [ValueType.F32], results := [] }, rfl,
      ValueType.F32, List.mem_singleton.mpr rfl, Or.inr ⟨rfl, rfl⟩⟩

/-- Claim C6: `deny_floating_point` succeeds iff no instruction and no
signature triggers rejection; the instruction scan runs first, so the
first denied instruction of the concatenated bodies determines the error
in preference to any signature violation, and with no denied instruction
the result is that of the signature scan (an instruction-free signature
violation yields the signature error). -/
theorem c6_deny_floating_point_first_violation (m : Module)
    (allow_f32 : Bool) :
    (deny_floating_point m allow_f32 = Except.ok () ↔
      (∀ op ∈ m.all_ops, instr_denied allow_f32 op = false) ∧
        no_sig_violation m allow_f32) ∧
      (∀ op, m.all_ops.find? (instr_denied allow_f32) = some op →
        deny_floating_point m allow_f32 = Except.error (instr_error op)) ∧
      (m.all_ops.find? (instr_denied allow_f32) = none →
        deny_floating_point m allow_f32 = sig_scan m allow_f32) ∧
      (m.all_ops.find? (instr_denied allow_f32) = none →
        ¬no_sig_violation m allow_f32 →
        deny_floating_point m allow_f32 = Except.error Error.sigDenied) := by
  have h1 : instr_scan m allow_f32 = Except.ok () ↔
      ∀ op ∈ m.all_ops, instr_denied allow_f32 op = false :=
    instr_scan_ops_ok_iff allow_f32 m.all_ops
  have hok : ∀ h : instr_scan m allow_f32 = Except.ok (),
      deny_floating_point m allow_f32 = sig_scan m allow_f32 := by
    intro h
    unfold deny_floating_point
    rw [h]
  refine ⟨?_, ?_, ?_, ?_⟩
  · cases hi : instr_scan m allow_f32 with
    | error e =>
      constructor
      · intro h
        unfold deny_floating_point at h
        rw [hi] at h
        cases h
      · rintro ⟨hall, _⟩
        rw [hi] at h1
        cases h1.mpr hall
    | ok u =>
      cases u
      rw [hok hi, sig_scan_ok_iff]
      rw [hi] at h1
      constructor
      · intro h
        exact ⟨h1.mp rfl, h⟩
      · rintro ⟨_, hsig⟩
        exact hsig
  · intro op hfind
    have hscan : instr_scan m allow_f32 = Except.error (instr_error op) :=
      instr_scan_ops_find_some allow_f32 m.all_ops op hfind
    unfold deny_floating_point
    rw [hscan]
  · intro hfind
    exact hok (instr_scan_ops_find_none allow_f32 m.all_ops hfind)
  · intro hfind hnsig
    rw [hok (instr_scan_ops_find_none allow_f32 m.all_ops hfind)]
    rcases sig_scan_cases m allow_f32 with hs | hs
    · exact absurd ((sig_scan_ok_iff m allow_f32).mp hs) hnsig
    · exact hs

/-- Claim C6 witness: the `f64.add` module is rejected with the error of
its first (and only) denied instruction; the dangling-reference module
falls through to the signature scan. -/
theorem c6_deny_floating_point_first_violation_witness :
    deny_floating_point f64AddModule false =
        Except.error (instr_error Instruction.F64Add) ∧
      deny_floating_point secondResultF64Module true =
        sig_scan secondResultF64Module true :=
  ⟨(c6_deny_floating_point_first_violation f64AddModule false).2.1
      Instruction.F64Add rfl,
   (c6_deny_floating_point_first_violation secondResultF64Module
      true).2.2.1 rfl⟩

/-- Claim C7: the three pipeline entry points are pure functions of the
module (plus their scalar arguments), so re-running any of them on the
same unmodified module yields an identical result. -/
theorem c7_pipeline_deterministic (m : Module) (allow_f32 : Bool)
    (cap : Nat) (compile_func : FuncBody → Except Error Instructions) :
    deny_floating_point m allow_f32 = deny_floating_point m allow_f32 ∧
      validate_memory_size m cap = validate_memory_size m cap ∧
      compile_module compile_func m = compile_module compile_func m :=
  ⟨rfl, rfl, rfl⟩

/-- Claim C8: the page sum is computed in wrapping 32-bit arithmetic.
Two memories of `2 ^ 31` initial pages each have mathematical total
`2 ^ 32`, but `sum_pages` wraps to `0`, so the gate accepts the module
even against cap `0`, which the true total strictly exceeds. -/
theorem c8_sum_pages_wraps_mod_2_32 :
    ((wrapModule.memories.getD []).map fun entry =>
        entry.limits.initial).sum = 2 ^ 32 ∧
      sum_pages wrapModule = 0 ∧
      validate_memory_size wrapModule 0 = Except.ok () ∧
      2 ^ 32 > 0 :=
  ⟨rfl, rfl, rfl, by norm_num⟩

/-- Claim C9: the signature scan is silently skipped when the function
section or the type section is absent, and a function-section entry
whose type reference is out of bounds of the type section is skipped:
scanning a section equals scanning only its in-bounds entries. -/
theorem c9_sig_scan_skips_dangling :
    (∀ (m : Module) (allow_f32 : Bool), m.functions = none →
        sig_scan m allow_f32 = Except.ok ()) ∧
      (∀ (m : Module) (allow_f32 : Bool), m.types = none →
        sig_scan m allow_f32 = Except.ok ()) ∧
      (∀ (allow_f32 : Bool) (types : List FuncType) (sec : List Func),
        sig_scan_entries allow_f32 types sec =
          sig_scan_entries allow_f32 types
            (sec.filter fun sig => sig.type_ref < types.length)) := by
  refine ⟨?_, ?_, ?_⟩
  · intro m allow_f32 h
    unfold sig_scan
    rw [h]
  · intro m allow_f32 h
    unfold sig_scan
    rw [h]
    cases m.functions <;> rfl
  · intro allow_f32 types sec
    induction sec with
    | nil => rfl
    | cons sig rest ih =>
      rw [List.filter_cons]
      by_cases href : sig.type_ref < types.length
      · rw [if_pos (by simpa using href)]
        unfold sig_scan_entries
        cases hg : types.get? sig.type_ref with
        | none =>
          rw [List.get?_eq_none] at hg
          omega
        | some ft =>
          dsimp only
          by_cases hden : type_denied allow_f32 ft = true
          · rw [if_pos hden, if_pos hden]
          · rw [if_neg hden, if_neg hden]
            exact ih
      · rw [if_neg (by simpa using href)]
        have hg : types.get? sig.type_ref = none :=
          List.get?_eq_none.mpr (Nat.le_of_not_lt href)
        conv_lhs => unfold sig_scan_entries
        rw [hg]
        exact ih

/-- Claim C9 witness: modules with the function section, respectively the
type section, absent pass the signature scan. -/
theorem c9_sig_scan_skips_dangling_witness :
    sig_scan truncModule true = Except.ok () ∧
      sig_scan (f32ConstModule 0) false = Except.ok () :=
  ⟨c9_sig_scan_skips_dangling.1 truncModule true rfl,
   c9_sig_scan_skips_dangling.2.1 (f32ConstModule 0) false rfl⟩

/-- Claim C10: the signature predicate of `deny_floating_point` reads
only the parameters and the first result of a function type — it is
unchanged by truncating the results to their first element — and
concretely the module whose only function has type `[] -> [i32, f64]`
passes under both values of `allow_f32`, the `f64` in the second result
being ignored. -/
theorem c10_type_denied_first_result_only :
    (∀ (allow_f32 : Bool) (params results_list : List ValueType),
        type_denied allow_f32
            { params := params, results := results_list } =
          type_denied allow_f32
            { params := params, results := results_list.take 1 }) ∧
      type_denied true
          { params := [], results := [ValueType.I32, ValueType.F64] } =
        false ∧
      type_denied false
          { params := [], results := [ValueType.I32, ValueType.F64] } =
        false ∧
      deny_floating_point secondResultF64Module true = Except.ok () ∧
      deny_floating_point secondResultF64Module false = Except.ok () := by
  refine ⟨?_, rfl, rfl, rfl, rfl⟩
  intro allow_f32 params rs
  unfold type_denied
  simp [List.take_take]

end Wasmi
